import Mathlib

/-!
Verification of the terminal-emulator core in `src/screen.rs`
(PicoCalc terminal: VT-driven cell grid, scrollback, dirty-row renderer).

The Rust source is shallowly embedded below.  Machine integers (`usize`,
`u8`, `u16`) are modelled as `Nat`; Rust's `saturating_sub` and `Nat`
subtraction agree.  `Vec<T>` is modelled as `List T`.

The Rust producer path can PANIC on out-of-range indexing, and one such
panic is reachable: the CSI `1J`/`1K` erase loops run `for i in
0..=cursor_x { line.chars[i] = ' '; line.attrs[i] = ... }`
(screen.rs lines 545-548 and 568-571), and `cursor_x = cols` is a
reachable wrap-pending state (print a full row; the wrap is deferred),
so `chars[cols]` on a `cols`-long row is indexed out of bounds.  The
embedding is therefore two-layered: the total functions (`print`,
`csi_dispatch`, `step`, `feed`) give the post-state of the non-panicking
executions, clamping the indexing with `List.getD` / `List.set` /
`writeRange`; the partial functions (`printP`, `csi_dispatchP`, `stepP`,
`feedP`, `applyOpP`) return `none` exactly when the Rust panics, via the
panic predicates `eraseLoopPanics` / `csiPanics` / `printPanics` that
transcribe the index bounds of each loop and `&mut` borrow.  On every
input on which the partial layer returns `some`, the clamping in the
total layer never fires, so the two layers together are exact.
-/

set_option maxHeartbeats 1600000

/-- `Color` from src/screen.rs (the `u8` payloads become `Nat`). -/
inductive Color where
  | Black | Red | Green | Yellow | Blue | Magenta | Cyan | White
  | BrightBlack | BrightRed | BrightGreen | BrightYellow
  | BrightBlue | BrightMagenta | BrightCyan | BrightWhite
  | DefaultFg | DefaultBg
  | Rgb (r g b : Nat)
  | Indexed (i : Nat)
deriving DecidableEq, Repr

/-- `Attrs` from src/screen.rs: per-cell style record. -/
structure Attrs where
  fg : Color
  bg : Color
  bold : Bool
  underline : Bool
  reverse : Bool
deriving DecidableEq, Repr

/-- `Attrs::default()`: fg=DefaultFg, bg=DefaultBg, all flags false. -/
def Attrs.default : Attrs :=
  { fg := Color.DefaultFg, bg := Color.DefaultBg,
    bold := false, underline := false, reverse := false }

instance : Inhabited Attrs := ⟨Attrs.default⟩

/-- `ScreenLine` from src/screen.rs: one grid row (chars, attrs, dirty flag). -/
structure ScreenLine where
  chars : List Char
  attrs : List Attrs
  dirty : Bool
deriving DecidableEq, Repr

/-- `ScreenLine::new(width)`: a fresh cleared row, spaces with default attrs,
born dirty. -/
def ScreenLine.new (width : Nat) : ScreenLine :=
  { chars := List.replicate width ' ',
    attrs := List.replicate width Attrs.default,
    dirty := true }

instance : Inhabited ScreenLine := ⟨ScreenLine.new 0⟩

/-- `ScreenLine::clear`: overwrite every char with a space and every attr with
the default, mark dirty.  The Rust `for`-loops over `iter_mut` are maps of
constant functions. -/
def ScreenLine.clear (l : ScreenLine) : ScreenLine :=
  { chars := l.chars.map (fun _ => ' '),
    attrs := l.attrs.map (fun _ => Attrs.default),
    dirty := true }

/-- The metrics the model reads off the `&'static MonoFont` it stores
(`character_size.width/height`, `character_spacing`, `baseline`).  The
concrete values of `FONTS[2]` (PROFONT_10_POINT) come from the external
`profont` crate; all theorems are parametric in them. -/
structure FontMetrics where
  charWidth : Nat
  charHeight : Nat
  charSpacing : Nat
  baseline : Nat
deriving DecidableEq, Repr

/-- `SCREEN_WIDTH` constant from src/screen.rs. -/
def SCREEN_WIDTH : Nat := 320

/-- `SCREEN_HEIGHT` constant from src/screen.rs. -/
def SCREEN_HEIGHT : Nat := 320

/-- `ScreenModel` from src/screen.rs. -/
structure ScreenModel where
  lines : List ScreenLine
  scrollback : List ScreenLine
  viewport_offset : Nat
  max_scrollback : Nat
  cursor_x : Nat
  cursor_y : Nat
  current_attrs : Attrs
  font : FontMetrics
  rows : Nat
  cols : Nat
  full_repaint : Bool
deriving DecidableEq, Repr

/-- `ScreenModel::default()` parameterized by the font metrics (the source
fixes `font := FONTS[2]`, an external-crate constant): `cols` and `rows` are
derived from the panel size and the font cell metrics, the grid is `rows`
fresh lines, scrollback empty, cursor at the origin, default style,
`max_scrollback = 200`, `full_repaint = true`. -/
def mkScreenModel (font : FontMetrics) : ScreenModel :=
  { lines := List.replicate (SCREEN_HEIGHT / font.charHeight) (ScreenLine.new (SCREEN_WIDTH / (font.charWidth + font.charSpacing))),
    scrollback := [],
    viewport_offset := 0,
    max_scrollback := 200,
    cursor_x := 0,
    cursor_y := 0,
    current_attrs := Attrs.default,
    font := font,
    rows := SCREEN_HEIGHT / font.charHeight,
    cols := SCREEN_WIDTH / (font.charWidth + font.charSpacing),
    full_repaint := true }

namespace ScreenModel

/-- `ScreenModel::clear` (public; also the body of CSI `2J` and of the `cls`
shell command): clear every grid line, home the cursor, request a full
repaint.  Scrollback, viewport offset and the current style are not touched. -/
def clear (m : ScreenModel) : ScreenModel :=
  { m with lines := m.lines.map ScreenLine.clear,
           cursor_x := 0, cursor_y := 0, full_repaint := true }

/-- `ScreenModel::scroll_up`: pop the first grid line into the scrollback
(dropping the oldest scrollback line once the length exceeds
`max_scrollback`), append a fresh line at the grid tail, request a full
repaint.  `Vec::remove(0)` is `List.drop 1` plus `headD` for the removed
element. -/
def scroll_up (m : ScreenModel) : ScreenModel :=
  if m.lines.isEmpty then m
  else
    let first := m.lines.headD default
    let sb := m.scrollback ++ [first]
    let sb := if sb.length > m.max_scrollback then sb.drop 1 else sb
    { m with lines := m.lines.drop 1 ++ [ScreenLine.new m.cols],
             scrollback := sb,
             full_repaint := true }

/-- `ScreenModel::scroll_view_up`. -/
def scroll_view_up (m : ScreenModel) (n : Nat) : ScreenModel :=
  { m with viewport_offset := min (m.viewport_offset + n) m.scrollback.length,
           full_repaint := true }

/-- `ScreenModel::scroll_view_down` (`saturating_sub` is `Nat` subtraction). -/
def scroll_view_down (m : ScreenModel) (n : Nat) : ScreenModel :=
  { m with viewport_offset := m.viewport_offset - n, full_repaint := true }

/-- `ScreenModel::reset_view`: drop back to the live view; repaint only if the
offset actually changed. -/
def reset_view (m : ScreenModel) : ScreenModel :=
  if m.viewport_offset ≠ 0 then
    { m with viewport_offset := 0, full_repaint := true }
  else m

/-- The cursor-advance prefix of `vte::Perform::print` for `ScreenModel`
(src/screen.rs lines 450-462): reset the viewport, scroll-and-clamp if the
cursor is below the grid, wrap (and possibly scroll) if the cursor sits past
the last column. -/
def printAdvance (m : ScreenModel) : ScreenModel :=
  let m := m.reset_view
  let m :=
    if m.cursor_y ≥ m.rows then
      { m.scroll_up with cursor_y := m.rows - 1 }
    else m
  if m.cursor_x ≥ m.cols then
    let m : ScreenModel := { m with cursor_x := 0, cursor_y := m.cursor_y + 1 }
    if m.cursor_y ≥ m.rows then
      { m.scroll_up with cursor_y := m.rows - 1 }
    else m
  else m

/-- `vte::Perform::print` for `ScreenModel`: advance/wrap, then write
`(c, current_attrs)` at the cursor, mark the row dirty and step the cursor
right.  The bounds guard `cursor_x < line.chars.len()` is the one in the
source. -/
def print (m : ScreenModel) (c : Char) : ScreenModel :=
  let m := m.printAdvance
  let line := m.lines.getD m.cursor_y default
  if m.cursor_x < line.chars.length then
    let line := { line with chars := line.chars.set m.cursor_x c,
                            attrs := line.attrs.set m.cursor_x m.current_attrs,
                            dirty := true }
    { m with lines := m.lines.set m.cursor_y line,
             cursor_x := m.cursor_x + 1 }
  else m

/-- `vte::Perform::execute` for `ScreenModel`: reset the viewport, then handle
LF (10), CR (13) and BS (8); every other C0 byte is ignored. -/
def execute (m : ScreenModel) (byte : Nat) : ScreenModel :=
  let m := m.reset_view
  if byte = 10 then
    let m : ScreenModel := { m with cursor_y := m.cursor_y + 1 }
    if m.cursor_y ≥ m.rows then
      { m.scroll_up with cursor_y := m.rows - 1 }
    else m
  else if byte = 13 then
    { m with cursor_x := 0 }
  else if byte = 8 then
    if m.cursor_x > 0 then { m with cursor_x := m.cursor_x - 1 } else m
  else m

end ScreenModel

/-- Overwrite the elements of `xs` at positions `i` with `lo ≤ i < hi` by `v`,
leaving everything else in place: the `for i in lo..hi { xs[i] = v }` loops of
the `J`/`K` erase handlers, restricted to their non-panicking executions.
An index past the end of the list makes the Rust loop PANIC; that case is
tracked separately by `eraseLoopPanics` below, and `csi_dispatchP` returns
`none` exactly there, so this clamping is only ever relied on where the loop
completes (where it writes precisely the positions in `lo ≤ i < hi`). -/
def writeRange (v : α) : Nat → Nat → Nat → List α → List α
  | _, _, _, [] => []
  | i, lo, hi, x :: xs =>
      (if lo ≤ i ∧ i < hi then v else x) :: writeRange v (i + 1) lo hi xs

/-- Erase columns `lo ≤ i < hi` of a line to a space carrying attrs `a`
(the body of the erase loops on their non-panicking executions; dirtying is
done at each call site, as in the source; the panic case is
`eraseLoopPanics`). -/
def ScreenLine.eraseCells (l : ScreenLine) (a : Attrs) (lo hi : Nat) : ScreenLine :=
  { l with chars := writeRange ' ' 0 lo hi l.chars,
           attrs := writeRange a 0 lo hi l.attrs }

namespace ScreenModel

/-- One SGR parameter applied to a style: the `match` arms of the `'m'` branch
of `csi_dispatch` (src/screen.rs lines 583-603). -/
def sgrApply (a : Attrs) (p : Nat) : Attrs :=
  if p = 0 then Attrs.default
  else if p = 1 then { a with bold := true }
  else if p = 4 then { a with underline := true }
  else if p = 7 then { a with reverse := true }
  else if p = 22 then { a with bold := false }
  else if p = 24 then { a with underline := false }
  else if p = 27 then { a with reverse := false }
  else if 30 ≤ p ∧ p ≤ 37 then { a with fg := Color.Indexed (p - 30) }
  else if p = 39 then { a with fg := Color.DefaultFg }
  else if 40 ≤ p ∧ p ≤ 47 then { a with bg := Color.Indexed (p - 40) }
  else if p = 49 then { a with bg := Color.DefaultBg }
  else if 90 ≤ p ∧ p ≤ 97 then { a with fg := Color.Indexed (p - 90 + 8) }
  else if 100 ≤ p ∧ p ≤ 107 then { a with bg := Color.Indexed (p - 100 + 8) }
  else a

/-- `vte::Perform::csi_dispatch` for `ScreenModel`: the post-state of the
non-panicking executions (the faithful fallible operation is
`csi_dispatchP`, which returns `none` exactly when a Rust erase loop or row
borrow indexes out of bounds — reachably so for `1J`/`1K` at the
wrap-pending state `cursor_x = cols`).  `params` is the list of leading
sub-parameter values (`p[0]` of each `vte` param group, a `u16`);
`intermediates` the intermediate bytes.  Sequences flagged `ignore` or
carrying intermediates are dropped.  The Rust `match` on the final byte is an
if-chain here. -/
def csi_dispatch (m : ScreenModel) (params : List Nat) (intermediates : List Nat)
    (ignore : Bool) (action : Char) : ScreenModel :=
  if ignore || !intermediates.isEmpty then m
  else if action = 'A' then
    let n := params.headD 1
    { m with cursor_y := m.cursor_y - n }
  else if action = 'B' then
    let n := params.headD 1
    { m with cursor_y := min (m.cursor_y + n) (m.rows - 1) }
  else if action = 'C' then
    let n := params.headD 1
    { m with cursor_x := min (m.cursor_x + n) (m.cols - 1) }
  else if action = 'D' then
    let n := params.headD 1
    { m with cursor_x := m.cursor_x - n }
  else if action = 'H' ∨ action = 'f' then
    let row := (params.headD 1).max 1 - 1
    let col := ((params.drop 1).headD 1).max 1 - 1
    { m with cursor_y := min row (m.rows - 1),
             cursor_x := min col (m.cols - 1) }
  else if action = 'J' then
    let n := params.headD 0
    if n = 0 then
      -- clear the current line from the cursor, then every line below
      let line := (m.lines.getD m.cursor_y default).eraseCells m.current_attrs m.cursor_x m.cols
      let line : ScreenLine := { line with dirty := true }
      let lines := m.lines.set m.cursor_y line
      let lines := lines.mapIdx
        (fun i l => if m.cursor_y + 1 ≤ i ∧ i < m.rows then l.clear else l)
      { m with lines := lines }
    else if n = 1 then
      -- clear every line above, then the current line up to the cursor
      let lines := m.lines.mapIdx (fun i l => if i < m.cursor_y then l.clear else l)
      let line := (lines.getD m.cursor_y default).eraseCells m.current_attrs 0 (m.cursor_x + 1)
      let line : ScreenLine := { line with dirty := true }
      { m with lines := lines.set m.cursor_y line }
    else if n = 2 then
      m.clear
    else m
  else if action = 'K' then
    let n := params.headD 0
    let line := m.lines.getD m.cursor_y default
    let line :=
      if n = 0 then line.eraseCells m.current_attrs m.cursor_x m.cols
      else if n = 1 then line.eraseCells m.current_attrs 0 (m.cursor_x + 1)
      else if n = 2 then line.eraseCells m.current_attrs 0 m.cols
      else line
    -- `line.dirty = true` runs after the match, for every mode value
    { m with lines := m.lines.set m.cursor_y { line with dirty := true } }
  else if action = 'm' then
    { m with current_attrs := params.foldl sgrApply m.current_attrs }
  else m

end ScreenModel

/-- One callback emitted by the `vte` parser while `Screen::parse_bytes`
(`feed_bytes`) consumes a byte stream.  The parser itself is an external
crate; any consumed byte sequence surfaces to the model as some list of these
events, so quantifying over event lists covers every byte sequence. -/
inductive Event where
  | print (c : Char)
  | execute (byte : Nat)
  | csi (params : List Nat) (intermediates : List Nat) (ignore : Bool) (action : Char)
  | hook
  | put
  | unhook
  | osc
  | esc
deriving DecidableEq, Repr

/-- Dispatch of one parser callback to the `vte::Perform` impl of
`ScreenModel` (`hook`/`put`/`unhook`/`osc_dispatch`/`esc_dispatch` are
accepted and ignored, as in the source). -/
def ScreenModel.step (m : ScreenModel) (e : Event) : ScreenModel :=
  match e with
  | Event.print c => m.print c
  | Event.execute b => m.execute b
  | Event.csi ps is ig a => m.csi_dispatch ps is ig a
  | Event.hook => m
  | Event.put => m
  | Event.unhook => m
  | Event.osc => m
  | Event.esc => m

/-- `Screen::parse_bytes` / `feed_bytes`, at callback granularity: fold the
event stream the parser produces over the model. -/
def ScreenModel.feed (m : ScreenModel) (es : List Event) : ScreenModel :=
  es.foldl ScreenModel.step m

/-- The public mutating operations of the model: the producer path (parser
callbacks) plus the direct API (`clear`, `scroll_view_up`, `scroll_view_down`,
`reset_view`; `increase_font`/`decrease_font` are empty stubs). -/
inductive Op where
  | ev (e : Event)
  | clearOp
  | viewUp (n : Nat)
  | viewDown (n : Nat)
  | resetViewOp
  | fontOp
deriving DecidableEq, Repr

/-- Apply one public operation. -/
def ScreenModel.applyOp (m : ScreenModel) (op : Op) : ScreenModel :=
  match op with
  | Op.ev e => m.step e
  | Op.clearOp => m.clear
  | Op.viewUp n => m.scroll_view_up n
  | Op.viewDown n => m.scroll_view_down n
  | Op.resetViewOp => m.reset_view
  | Op.fontOp => m

/-- Does the erase loop `for i in lo..hi { l.chars[i] = ' '; l.attrs[i] = a }`
panic?  The loop walks every `i` with `lo ≤ i < hi` in order, writing
`chars[i]` then `attrs[i]`, so it panics iff some index in the range reaches
the end of either vector. -/
def eraseLoopPanics (l : ScreenLine) (lo hi : Nat) : Bool :=
  decide (lo < hi) && decide (min l.chars.length l.attrs.length < hi)

/-- Does the Rust `csi_dispatch` panic on this dispatch?  Transcribes the
`&mut self.lines[cursor_y]` borrows and the erase-loop bounds of the `J` and
`K` arms (screen.rs lines 522-582); no other arm indexes anything.  For
`J`, mode 1's leading loop `for i in 0..cursor_y { self.lines[i].clear() }`
panics iff `lines.len < cursor_y`, which is subsumed by the row-borrow
condition `lines.len ≤ cursor_y`. -/
def ScreenModel.csiPanics (m : ScreenModel) (params : List Nat)
    (intermediates : List Nat) (ignore : Bool) (action : Char) : Bool :=
  if ignore || !intermediates.isEmpty then false
  else if action = 'J' then
    let n := params.headD 0
    if n = 0 then
      decide (m.lines.length ≤ m.cursor_y) ||
      eraseLoopPanics (m.lines.getD m.cursor_y default) m.cursor_x m.cols ||
      (decide (m.cursor_y + 1 < m.rows) && decide (m.lines.length < m.rows))
    else if n = 1 then
      decide (m.lines.length ≤ m.cursor_y) ||
      eraseLoopPanics (m.lines.getD m.cursor_y default) 0 (m.cursor_x + 1)
    else false
  else if action = 'K' then
    let n := params.headD 0
    decide (m.lines.length ≤ m.cursor_y) ||
    (if n = 0 then eraseLoopPanics (m.lines.getD m.cursor_y default) m.cursor_x m.cols
     else if n = 1 then eraseLoopPanics (m.lines.getD m.cursor_y default) 0 (m.cursor_x + 1)
     else if n = 2 then eraseLoopPanics (m.lines.getD m.cursor_y default) 0 m.cols
     else false)
  else false

/-- The faithful fallible `csi_dispatch`: `none` models the Rust panic.  On
the `some` side the clamping inside `csi_dispatch` never fires (every index
the loop would visit is in bounds), so the post-state is exact. -/
def ScreenModel.csi_dispatchP (m : ScreenModel) (params : List Nat)
    (intermediates : List Nat) (ignore : Bool) (action : Char) : Option ScreenModel :=
  if m.csiPanics params intermediates ignore action then none
  else some (m.csi_dispatch params intermediates ignore action)

/-- Does the Rust `print` panic?  After the advance phase it borrows
`&mut self.lines[cursor_y]` (panic iff the row index is out of bounds) and,
under the guard `cursor_x < line.chars.len()`, writes `chars[cursor_x]` then
`attrs[cursor_x]` — the attrs write is not separately guarded.  Unreachable
from a `WF` state (the advance leaves `cursor_y < rows = lines.len` and rows
have equal-width vectors), but transcribed for fidelity. -/
def ScreenModel.printPanics (m : ScreenModel) : Bool :=
  let m1 := m.printAdvance
  decide (m1.lines.length ≤ m1.cursor_y) ||
    (decide (m1.cursor_x < (m1.lines.getD m1.cursor_y default).chars.length) &&
     decide ((m1.lines.getD m1.cursor_y default).attrs.length ≤ m1.cursor_x))

/-- The faithful fallible `print`. -/
def ScreenModel.printP (m : ScreenModel) (c : Char) : Option ScreenModel :=
  if m.printPanics then none else some (m.print c)

/-- One parser callback with panics made explicit: `execute` and the ignored
callbacks index nothing (`scroll_up` guards its `remove(0)` calls) and are
total. -/
def ScreenModel.stepP (m : ScreenModel) (e : Event) : Option ScreenModel :=
  match e with
  | Event.print c => m.printP c
  | Event.csi ps is2 ig a => m.csi_dispatchP ps is2 ig a
  | e => some (m.step e)

/-- `Screen::parse_bytes` / `feed_bytes` with panics made explicit: a panic
anywhere in the stream aborts the whole call (`none`). -/
def ScreenModel.feedP (m : ScreenModel) (es : List Event) : Option ScreenModel :=
  match es with
  | [] => some m
  | e :: rest =>
    match m.stepP e with
    | none => none
    | some m2 => m2.feedP rest

/-- One public operation with panics made explicit (only the producer
callbacks can panic; `clear`, the view operations and the font stubs index
nothing). -/
def ScreenModel.applyOpP (m : ScreenModel) (op : Op) : Option ScreenModel :=
  match op with
  | Op.ev e => m.stepP e
  | op => some (m.applyOp op)

/-!
The renderer path: (`update_display`, `screen_painter`)

The display adapter (a `mipidsi` display over SPI) is external; what matters
to the core is which draw calls are best-effort and which are not:

* `display.clear(...)` (on `full_repaint`) and the two `fill_solid` calls
  (cell background, underline strip) end in `.unwrap()` — a returned error
  panics, aborting the paint (modelled as `Except.error`);
* the glyph draws (`Text::draw` / `draw_box_char`, whose inner line, arc,
  rectangle and pixel draws all end in `.ok()`) and the cursor `fill_solid`
  end in `.ok()` — a returned error is discarded and cannot influence the
  model or the control flow, so these sites are modelled as counting one
  best-effort draw and consuming no oracle input.

`DrawOracle` says whether the `clear` call succeeds and whether the `n`-th
unwrapped `fill_solid` call succeeds.  The colour arithmetic
(`Color::to_rgb565`, reverse swap, bold promotion) affects neither the model
nor the control flow and is not modelled.
-/

/-- Success/failure of the fallible (unwrapped) display-adapter calls during
one paint cycle. -/
structure DrawOracle where
  clearOk : Bool
  fillOk : Nat → Bool

/-- Where a painted line came from (live grid or scrollback), so its dirty
flag can be cleared in place, as the `&mut` borrow does in the source. -/
inductive LineSlot where
  | inGrid (i : Nat)
  | inScrollback (i : Nat)
deriving DecidableEq, Repr

/-- Resolve screen row `y` to its source line (src/screen.rs lines 338-354):
with a viewport offset, index into scrollback-then-grid; otherwise the live
grid row.  (`saturating_sub` is `Nat` subtraction.) -/
def ScreenModel.resolveLine (m : ScreenModel) (y : Nat) : ScreenLine × LineSlot :=
  if m.viewport_offset > 0 then
    let total := m.scrollback.length + m.rows
    let viewStart := total - m.rows - m.viewport_offset
    let absIdx := viewStart + y
    if absIdx < m.scrollback.length then
      (m.scrollback.getD absIdx default, LineSlot.inScrollback absIdx)
    else
      (m.lines.getD (absIdx - m.scrollback.length) default,
       LineSlot.inGrid (absIdx - m.scrollback.length))
  else (m.lines.getD y default, LineSlot.inGrid y)

/-- Write a painted line back into the slot it was resolved from. -/
def ScreenModel.putLine (m : ScreenModel) (slot : LineSlot) (l : ScreenLine) : ScreenModel :=
  match slot with
  | LineSlot.inGrid i => { m with lines := m.lines.set i l }
  | LineSlot.inScrollback i => { m with scrollback := m.scrollback.set i l }

/-- The column loop of `update_display` over one line's `(char, attr)` pairs
(src/screen.rs lines 368-428).  State: `fc` counts unwrapped `fill_solid`
calls so far, `sc` counts best-effort draws so far.  A cell whose left edge
falls past the panel width breaks out of the loop. -/
def paintCells (o : DrawOracle) (cellW : Nat) :
    List (Nat × Char × Attrs) → Nat → Nat → Except Unit (Nat × Nat)
  | [], fc, sc => Except.ok (fc, sc)
  | (x, ch, attr) :: rest, fc, sc =>
    if x * cellW ≥ SCREEN_WIDTH then Except.ok (fc, sc)
    else
      -- display.fill_solid(cell rect, bg).unwrap()
      if !o.fillOk fc then Except.error ()
      else
        -- glyph: box-drawing or text draw, best-effort either way
        let sc := if ch ≠ ' ' then sc + 1 else sc
        if attr.underline then
          -- display.fill_solid(underline strip, fg).unwrap()
          if !o.fillOk (fc + 1) then Except.error ()
          else paintCells o cellW rest (fc + 2) sc
        else paintCells o cellW rest (fc + 1) sc

/-- The row loop of `update_display` (src/screen.rs lines 337-430): resolve
each screen row, skip clean rows unless `full_repaint`, stop at the panel
bottom, paint the cells, clear the row's dirty flag in place. -/
def paintRows (o : DrawOracle) (cellW cellH : Nat) :
    List Nat → ScreenModel → Nat → Nat → Except Unit (ScreenModel × Nat × Nat)
  | [], m, fc, sc => Except.ok (m, fc, sc)
  | y :: rest, m, fc, sc =>
    let r := m.resolveLine y
    if !r.1.dirty && !m.full_repaint then paintRows o cellW cellH rest m fc sc
    else if y * cellH ≥ SCREEN_HEIGHT then Except.ok (m, fc, sc)
    else
      match paintCells o cellW ((r.1.chars.zip r.1.attrs).enum) fc sc with
      | Except.error e => Except.error e
      | Except.ok (fc, sc) =>
          let m := m.putLine r.2 { r.1 with dirty := false }
          paintRows o cellW cellH rest m fc sc

/-- `ScreenModel::update_display`, against an abstract adapter: clear the
panel when `full_repaint` (unwrapped), paint the rows, drop `full_repaint`,
then draw the block cursor best-effort.  Returns the mutated model and the
number of best-effort draws, or `Except.error` if an unwrapped call failed
(the `.unwrap()` panic). -/
def ScreenModel.update_display (m : ScreenModel) (o : DrawOracle) :
    Except Unit (ScreenModel × Nat) :=
  let cellW := m.font.charWidth + m.font.charSpacing
  let cellH := m.font.charHeight
  -- if full_repaint { display.clear(BLACK).unwrap() }
  if m.full_repaint && !o.clearOk then Except.error ()
  else
    match paintRows o cellW cellH (List.range m.rows) m 0 0 with
    | Except.error e => Except.error e
    | Except.ok (m', _, sc) =>
        let m' : ScreenModel := { m' with full_repaint := false }
        let cx := m'.cursor_x * cellW
        let cy := m'.cursor_y * cellH
        -- cursor block fill is `.ok()` (best-effort)
        let sc := if cx < SCREEN_WIDTH && cy < SCREEN_HEIGHT then sc + 1 else sc
        Except.ok (m', sc)

/-!
Structural invariant and helper lemmas.
-/

/-- A well-formed line for a `cols`-wide grid: both cell vectors have exactly
`cols` entries. -/
def lineWF (cols : Nat) (l : ScreenLine) : Prop :=
  l.chars.length = cols ∧ l.attrs.length = cols

instance (cols : Nat) (l : ScreenLine) : Decidable (lineWF cols l) :=
  decidable_of_iff (l.chars.length = cols ∧ l.attrs.length = cols) Iff.rfl

/-- Structural well-formedness of the stores: positive dimensions, a
`rows`-long grid of `cols`-wide lines, `cols`-wide scrollback lines, and a
scrollback within its capacity of 200. -/
def ScreenModel.gridWF (m : ScreenModel) : Prop :=
  1 ≤ m.rows ∧ 1 ≤ m.cols ∧
  m.lines.length = m.rows ∧
  (∀ l ∈ m.lines, lineWF m.cols l) ∧
  (∀ l ∈ m.scrollback, lineWF m.cols l) ∧
  m.scrollback.length ≤ m.max_scrollback ∧
  m.max_scrollback = 200

instance (m : ScreenModel) : Decidable m.gridWF :=
  decidable_of_iff
    (1 ≤ m.rows ∧ 1 ≤ m.cols ∧
      m.lines.length = m.rows ∧
      (∀ l ∈ m.lines, lineWF m.cols l) ∧
      (∀ l ∈ m.scrollback, lineWF m.cols l) ∧
      m.scrollback.length ≤ m.max_scrollback ∧
      m.max_scrollback = 200) Iff.rfl

/-- Full well-formedness: structure plus cursor bounds.  `cursor_x = cols` is
allowed: it is the transient wrap-pending position `print` leaves behind
after writing in the last column. -/
def ScreenModel.WF (m : ScreenModel) : Prop :=
  m.gridWF ∧ m.cursor_x ≤ m.cols ∧ m.cursor_y < m.rows

instance (m : ScreenModel) : Decidable m.WF :=
  decidable_of_iff (m.gridWF ∧ m.cursor_x ≤ m.cols ∧ m.cursor_y < m.rows) Iff.rfl

theorem lineWF_new (c : Nat) : lineWF c (ScreenLine.new c) := by
  simp [lineWF, ScreenLine.new]

theorem lineWF_clear {c : Nat} {l : ScreenLine} (h : lineWF c l) :
    lineWF c l.clear := by
  simpa [lineWF, ScreenLine.clear] using h

theorem length_writeRange (v : α) (i lo hi : Nat) (xs : List α) :
    (writeRange v i lo hi xs).length = xs.length := by
  induction xs generalizing i with
  | nil => rfl
  | cons x xs ih => simp [writeRange, ih]

theorem lineWF_eraseCells {c : Nat} {l : ScreenLine} (h : lineWF c l)
    (a : Attrs) (lo hi : Nat) : lineWF c (l.eraseCells a lo hi) := by
  obtain ⟨h1, h2⟩ := h
  simp [lineWF, ScreenLine.eraseCells, length_writeRange, h1, h2]

theorem lineWF_dirty {c : Nat} {l : ScreenLine} (h : lineWF c l) (b : Bool) :
    lineWF c { l with dirty := b } := h

theorem mem_mapIdx_preserve {α} {l : List α} {f : Nat → α → α} {P : α → Prop}
    (h0 : ∀ a ∈ l, P a) (hf : ∀ i a, P a → P (f i a)) :
    ∀ b ∈ List.mapIdx f l, P b := by
  intro b hb
  rw [List.mem_iff_getElem] at hb
  obtain ⟨i, hi, hEq⟩ := hb
  rw [List.getElem_mapIdx] at hEq
  exact hEq ▸ hf i _ (h0 _ (List.getElem_mem _))

theorem mem_set_preserve {α} {l : List α} {i : Nat} {v : α} {P : α → Prop}
    (h0 : ∀ a ∈ l, P a) (hv : P v) :
    ∀ b ∈ l.set i v, P b := by
  intro b hb
  rcases List.mem_or_eq_of_mem_set hb with h | rfl
  · exact h0 _ h
  · exact hv

namespace ScreenModel

theorem reset_view_eq (m : ScreenModel) :
    m.reset_view = { m with viewport_offset := 0,
                            full_repaint := m.full_repaint || m.viewport_offset != 0 } := by
  cases m with
  | mk lines sb vo ms cx cy ca f r c fr =>
    by_cases h : vo = 0 <;> simp [reset_view, h]

theorem scroll_up_rows (m : ScreenModel) : (m.scroll_up).rows = m.rows := by
  unfold scroll_up; split <;> rfl

theorem scroll_up_cols (m : ScreenModel) : (m.scroll_up).cols = m.cols := by
  unfold scroll_up; split <;> rfl

theorem scroll_up_cursor_x (m : ScreenModel) : (m.scroll_up).cursor_x = m.cursor_x := by
  unfold scroll_up; split <;> rfl

theorem scroll_up_cursor_y (m : ScreenModel) : (m.scroll_up).cursor_y = m.cursor_y := by
  unfold scroll_up; split <;> rfl

theorem scroll_up_viewport (m : ScreenModel) :
    (m.scroll_up).viewport_offset = m.viewport_offset := by
  unfold scroll_up; split <;> rfl

theorem scroll_up_max (m : ScreenModel) :
    (m.scroll_up).max_scrollback = m.max_scrollback := by
  unfold scroll_up; split <;> rfl

theorem scroll_up_attrs (m : ScreenModel) :
    (m.scroll_up).current_attrs = m.current_attrs := by
  unfold scroll_up; split <;> rfl

theorem scroll_up_eq {m : ScreenModel} (h : m.lines ≠ []) :
    m.scroll_up = { m with
      lines := m.lines.drop 1 ++ [ScreenLine.new m.cols],
      scrollback := if (m.scrollback ++ [m.lines.headD default]).length > m.max_scrollback
                    then (m.scrollback ++ [m.lines.headD default]).drop 1
                    else m.scrollback ++ [m.lines.headD default],
      full_repaint := true } := by
  unfold scroll_up
  rw [if_neg (by simp [List.isEmpty_iff, h])]

theorem gridWF_scroll_up {m : ScreenModel} (h : m.gridWF) : (m.scroll_up).gridWF := by
  obtain ⟨hr, hc, hlen, hall, hsb, hsblen, hmax⟩ := h
  have hne : m.lines ≠ [] := by
    intro hL; rw [hL] at hlen; simp at hlen; omega
  have hhead : m.lines.headD default ∈ m.lines := by
    rcases hL : m.lines with _ | ⟨a, t⟩
    · exact absurd hL hne
    · exact List.mem_cons_self _ _
  have hmem : ∀ x ∈ m.scrollback ++ [m.lines.headD default], lineWF m.cols x := by
    intro x hx2
    simp only [List.mem_append, List.mem_singleton] at hx2
    rcases hx2 with hx2 | rfl
    · exact hsb _ hx2
    · exact hall _ hhead
  rw [scroll_up_eq hne]
  refine ⟨hr, hc, ?_, ?_, ?_, ?_, hmax⟩
  · simp only [List.length_append, List.length_drop, List.length_singleton, hlen]
    omega
  · intro l hl
    simp only [List.mem_append, List.mem_singleton] at hl
    rcases hl with hl | rfl
    · exact hall _ (List.mem_of_mem_drop hl)
    · exact lineWF_new _
  · intro l hl
    simp only at hl
    split at hl
    · exact hmem _ (List.mem_of_mem_drop hl)
    · exact hmem _ hl
  · simp only [List.length_append, List.length_singleton]
    split
    · simp only [List.length_drop, List.length_append, List.length_singleton]
      omega
    · next hgt =>
      simp only [not_lt, List.length_append, List.length_singleton] at hgt
      simpa using hgt


theorem WF_scroll_up {m : ScreenModel} (h : m.WF) : (m.scroll_up).WF :=
  ⟨gridWF_scroll_up h.1,
   by rw [scroll_up_cursor_x, scroll_up_cols]; exact h.2.1,
   by rw [scroll_up_cursor_y, scroll_up_rows]; exact h.2.2⟩

theorem reset_view_lines (m : ScreenModel) : (m.reset_view).lines = m.lines := by
  rw [reset_view_eq]

theorem reset_view_scrollback (m : ScreenModel) :
    (m.reset_view).scrollback = m.scrollback := by
  rw [reset_view_eq]

theorem reset_view_viewport (m : ScreenModel) : (m.reset_view).viewport_offset = 0 := by
  rw [reset_view_eq]

theorem reset_view_max (m : ScreenModel) :
    (m.reset_view).max_scrollback = m.max_scrollback := by
  rw [reset_view_eq]

theorem reset_view_cursor_x (m : ScreenModel) : (m.reset_view).cursor_x = m.cursor_x := by
  rw [reset_view_eq]

theorem reset_view_cursor_y (m : ScreenModel) : (m.reset_view).cursor_y = m.cursor_y := by
  rw [reset_view_eq]

theorem reset_view_attrs (m : ScreenModel) :
    (m.reset_view).current_attrs = m.current_attrs := by
  rw [reset_view_eq]

theorem reset_view_font (m : ScreenModel) : (m.reset_view).font = m.font := by
  rw [reset_view_eq]

theorem reset_view_rows (m : ScreenModel) : (m.reset_view).rows = m.rows := by
  rw [reset_view_eq]

theorem reset_view_cols (m : ScreenModel) : (m.reset_view).cols = m.cols := by
  rw [reset_view_eq]

theorem gridWF_reset_view {m : ScreenModel} (h : m.gridWF) : (m.reset_view).gridWF := by
  rw [reset_view_eq]; exact h

theorem WF_reset_view {m : ScreenModel} (h : m.WF) : (m.reset_view).WF := by
  rw [reset_view_eq]; exact h

theorem gridWF_congr {m n : ScreenModel} (h : m.gridWF)
    (hl : n.lines = m.lines) (hs : n.scrollback = m.scrollback)
    (hm : n.max_scrollback = m.max_scrollback)
    (hr : n.rows = m.rows) (hc : n.cols = m.cols) : n.gridWF := by
  unfold gridWF at h ⊢
  rw [hl, hs, hm, hr, hc]
  exact h

theorem printAdvance_eq_of_WF {m : ScreenModel} (hy : m.cursor_y < m.rows) :
    m.printAdvance =
      if m.cursor_x ≥ m.cols then
        if m.cursor_y + 1 ≥ m.rows then
          { ({ m with viewport_offset := 0, full_repaint := m.full_repaint || m.viewport_offset != 0, cursor_x := 0, cursor_y := m.cursor_y + 1 } : ScreenModel).scroll_up with cursor_y := m.rows - 1 }
        else
          { m with viewport_offset := 0,
                   full_repaint := m.full_repaint || m.viewport_offset != 0,
                   cursor_x := 0, cursor_y := m.cursor_y + 1 }
      else
        { m with viewport_offset := 0,
                 full_repaint := m.full_repaint || m.viewport_offset != 0 } := by
  unfold printAdvance
  rw [reset_view_eq]
  dsimp only
  rw [if_neg (by omega : ¬ m.cursor_y ≥ m.rows)]

theorem printAdvance_spec {m : ScreenModel} (h : m.WF) :
    (m.printAdvance).gridWF ∧ (m.printAdvance).cursor_x < m.cols ∧
    (m.printAdvance).cursor_y < m.rows ∧ (m.printAdvance).cols = m.cols ∧
    (m.printAdvance).rows = m.rows ∧
    (m.printAdvance).current_attrs = m.current_attrs := by
  obtain ⟨hg, hx, hy⟩ := h
  have hr : 1 ≤ m.rows := hg.1
  have hc : 1 ≤ m.cols := hg.2.1
  rw [printAdvance_eq_of_WF hy]
  by_cases hxc : m.cursor_x ≥ m.cols
  · rw [if_pos hxc]
    by_cases hyr : m.cursor_y + 1 ≥ m.rows
    · rw [if_pos hyr]
      have hgl2 : ScreenModel.gridWF { m with viewport_offset := 0, full_repaint := m.full_repaint || m.viewport_offset != 0, cursor_x := 0, cursor_y := m.cursor_y + 1 } := hg
      refine ⟨gridWF_congr (gridWF_scroll_up hgl2) rfl rfl rfl rfl rfl, ?_, ?_, ?_, ?_, ?_⟩
      · dsimp only
        rw [scroll_up_cursor_x]
        dsimp only
        omega
      · dsimp only
        omega
      · dsimp only
        rw [scroll_up_cols]
      · dsimp only
        rw [scroll_up_rows]
      · dsimp only
        rw [scroll_up_attrs]
    · rw [if_neg hyr]
      have hgl2 : ScreenModel.gridWF { m with viewport_offset := 0, full_repaint := m.full_repaint || m.viewport_offset != 0, cursor_x := 0, cursor_y := m.cursor_y + 1 } := hg
      exact ⟨hgl2, by dsimp only; omega, by dsimp only; omega, rfl, rfl, rfl⟩
  · rw [if_neg hxc]
    have hgl1 : ScreenModel.gridWF { m with viewport_offset := 0, full_repaint := m.full_repaint || m.viewport_offset != 0 } := hg
    exact ⟨hgl1, by dsimp only; omega, by dsimp only; omega, rfl, rfl, rfl⟩

theorem lineWF_getD {m : ScreenModel} (hg : m.gridWF) {i : Nat}
    (hy : i < m.lines.length) : lineWF m.cols (m.lines.getD i default) := by
  rw [List.getD_eq_getElem _ _ hy]
  exact hg.2.2.2.1 _ (List.getElem_mem _)

theorem WF_print {m : ScreenModel} (h : m.WF) (c : Char) : (m.print c).WF := by
  obtain ⟨hg, hxlt, hylt, hcols, hrows, _⟩ := printAdvance_spec h
  have hylen : (m.printAdvance).cursor_y < (m.printAdvance).lines.length := by
    rw [hg.2.2.1, hrows]
    exact hylt
  unfold print
  dsimp only
  split
  · next hguard =>
    refine ⟨⟨hg.1, hg.2.1, ?_, ?_, hg.2.2.2.2.1, hg.2.2.2.2.2.1, hg.2.2.2.2.2.2⟩, ?_, ?_⟩
    · rw [List.length_set]
      exact hg.2.2.1
    · refine mem_set_preserve hg.2.2.2.1 ?_
      have hwf : lineWF (m.printAdvance).cols
          ((m.printAdvance).lines.getD (m.printAdvance).cursor_y default) :=
        lineWF_getD hg hylen
      exact ⟨by rw [List.length_set]; exact hwf.1, by rw [List.length_set]; exact hwf.2⟩
    · dsimp only
      omega
    · dsimp only
      omega
  · exact ⟨hg, by omega, by omega⟩

theorem WF_execute {m : ScreenModel} (h : m.WF) (b : Nat) : (m.execute b).WF := by
  obtain ⟨hg, hx, hy⟩ := h
  have hr : 1 ≤ m.rows := hg.1
  unfold execute
  rw [reset_view_eq]
  dsimp only
  by_cases h10 : b = 10
  · rw [if_pos h10]
    by_cases hyr : m.cursor_y + 1 ≥ m.rows
    · rw [if_pos hyr]
      have hgl2 : ScreenModel.gridWF { m with viewport_offset := 0, full_repaint := m.full_repaint || m.viewport_offset != 0, cursor_y := m.cursor_y + 1 } := hg
      refine ⟨gridWF_congr (gridWF_scroll_up hgl2) rfl rfl rfl rfl rfl, ?_, ?_⟩
      · dsimp only
        rw [scroll_up_cursor_x, scroll_up_cols]
        dsimp only
        exact hx
      · dsimp only
        rw [scroll_up_rows]
        dsimp only
        omega
    · rw [if_neg hyr]
      have hgl2 : ScreenModel.gridWF { m with viewport_offset := 0, full_repaint := m.full_repaint || m.viewport_offset != 0, cursor_y := m.cursor_y + 1 } := hg
      exact ⟨hgl2, hx, by dsimp only; omega⟩
  · rw [if_neg h10]
    have hgl1 : ScreenModel.gridWF { m with viewport_offset := 0, full_repaint := m.full_repaint || m.viewport_offset != 0 } := hg
    by_cases h13 : b = 13
    · rw [if_pos h13]
      exact ⟨hgl1, by dsimp only; omega, hy⟩
    · rw [if_neg h13]
      by_cases h8 : b = 8
      · rw [if_pos h8]
        by_cases h0 : m.cursor_x > 0
        · rw [if_pos h0]
          exact ⟨hgl1, by dsimp only; omega, hy⟩
        · rw [if_neg h0]
          exact ⟨hgl1, hx, hy⟩
      · rw [if_neg h8]
        exact ⟨hgl1, hx, hy⟩

theorem WF_clear {m : ScreenModel} (h : m.WF) : m.clear.WF := by
  obtain ⟨⟨hr, hc, hlen, hall, hsb, hsblen, hmax⟩, _, _⟩ := h
  refine ⟨⟨hr, hc, ?_, ?_, hsb, hsblen, hmax⟩, by unfold clear; dsimp only; omega,
    by unfold clear; dsimp only; omega⟩
  · simpa [clear] using hlen
  · intro l hl
    simp only [clear, List.mem_map] at hl
    obtain ⟨a, ha, rfl⟩ := hl
    exact lineWF_clear (hall _ ha)

end ScreenModel

namespace ScreenModel

theorem WF_with_lines {m : ScreenModel} (h : m.WF) {ls : List ScreenLine}
    (hlen : ls.length = m.lines.length) (hmem : ∀ l ∈ ls, lineWF m.cols l) :
    ({ m with lines := ls } : ScreenModel).WF := by
  obtain ⟨⟨hr2, hc2, hl2, _, hsb2, hsbl2, hmax2⟩, hx2, hy2⟩ := h
  exact ⟨⟨hr2, hc2, by dsimp only; rw [hlen, hl2], hmem, hsb2, hsbl2, hmax2⟩, hx2, hy2⟩

theorem WF_csi_dispatch {m : ScreenModel} (h : m.WF) (ps is2 : List Nat)
    (ig : Bool) (a : Char) : (m.csi_dispatch ps is2 ig a).WF := by
  obtain ⟨hg, hx, hy⟩ := h
  have hr : 1 ≤ m.rows := hg.1
  have hc : 1 ≤ m.cols := hg.2.1
  have hylen : m.cursor_y < m.lines.length := by rw [hg.2.2.1]; exact hy
  have hall := hg.2.2.2.1
  have hlineY : lineWF m.cols (m.lines.getD m.cursor_y default) := lineWF_getD hg hylen
  unfold csi_dispatch
  dsimp only
  by_cases hig : (ig || !is2.isEmpty) = true
  · rw [if_pos hig]; exact ⟨hg, hx, hy⟩
  · rw [if_neg hig]
    by_cases hA : a = 'A'
    · rw [if_pos hA]; exact ⟨hg, hx, by dsimp only; omega⟩
    · rw [if_neg hA]
      by_cases hB : a = 'B'
      · rw [if_pos hB]; exact ⟨hg, hx, by dsimp only; omega⟩
      · rw [if_neg hB]
        by_cases hC : a = 'C'
        · rw [if_pos hC]; exact ⟨hg, by dsimp only; omega, hy⟩
        · rw [if_neg hC]
          by_cases hD : a = 'D'
          · rw [if_pos hD]; exact ⟨hg, by dsimp only; omega, hy⟩
          · rw [if_neg hD]
            by_cases hH : a = 'H' ∨ a = 'f'
            · rw [if_pos hH]; exact ⟨hg, by dsimp only; omega, by dsimp only; omega⟩
            · rw [if_neg hH]
              by_cases hJ : a = 'J'
              · rw [if_pos hJ]
                by_cases hJ0 : ps.headD 0 = 0
                · rw [if_pos hJ0]
                  refine WF_with_lines ⟨hg, hx, hy⟩ ?_ ?_
                  · simp [List.length_set]
                  · refine mem_mapIdx_preserve (mem_set_preserve hall ?_) ?_
                    · exact lineWF_eraseCells hlineY _ _ _
                    · intro i l hP
                      dsimp only
                      split
                      · exact lineWF_clear hP
                      · exact hP
                · rw [if_neg hJ0]
                  by_cases hJ1 : ps.headD 0 = 1
                  · rw [if_pos hJ1]
                    refine WF_with_lines ⟨hg, hx, hy⟩ ?_ ?_
                    · simp [List.length_set]
                    · have hf : ∀ i l, lineWF m.cols l →
                          lineWF m.cols (if i < m.cursor_y then ScreenLine.clear l else l) := by
                        intro i l hP
                        split
                        · exact lineWF_clear hP
                        · exact hP
                      refine mem_set_preserve (mem_mapIdx_preserve hall hf) ?_
                      have hmlen : m.cursor_y <
                          (List.mapIdx (fun i l => if i < m.cursor_y then ScreenLine.clear l else l) m.lines).length := by
                        rw [List.length_mapIdx]; exact hylen
                      have hwf2 : lineWF m.cols
                          ((List.mapIdx (fun i l => if i < m.cursor_y then ScreenLine.clear l else l) m.lines).getD m.cursor_y default) := by
                        rw [List.getD_eq_getElem _ _ hmlen, List.getElem_mapIdx]
                        split
                        · exact lineWF_clear (hall _ (List.getElem_mem _))
                        · exact hall _ (List.getElem_mem _)
                      exact lineWF_eraseCells hwf2 _ _ _
                  · rw [if_neg hJ1]
                    by_cases hJ2 : ps.headD 0 = 2
                    · rw [if_pos hJ2]; exact WF_clear ⟨hg, hx, hy⟩
                    · rw [if_neg hJ2]; exact ⟨hg, hx, hy⟩
              · rw [if_neg hJ]
                by_cases hK : a = 'K'
                · rw [if_pos hK]
                  refine WF_with_lines ⟨hg, hx, hy⟩ ?_ ?_
                  · simp [List.length_set]
                  · refine mem_set_preserve hall ?_
                    refine ⟨?_, ?_⟩
                    · dsimp only
                      split
                      · simp only [ScreenLine.eraseCells, length_writeRange]
                        exact hlineY.1
                      · split
                        · simp only [ScreenLine.eraseCells, length_writeRange]
                          exact hlineY.1
                        · split
                          · simp only [ScreenLine.eraseCells, length_writeRange]
                            exact hlineY.1
                          · exact hlineY.1
                    · dsimp only
                      split
                      · simp only [ScreenLine.eraseCells, length_writeRange]
                        exact hlineY.2
                      · split
                        · simp only [ScreenLine.eraseCells, length_writeRange]
                          exact hlineY.2
                        · split
                          · simp only [ScreenLine.eraseCells, length_writeRange]
                            exact hlineY.2
                          · exact hlineY.2
                · rw [if_neg hK]
                  by_cases hM : a = 'm'
                  · rw [if_pos hM]; exact ⟨hg, hx, hy⟩
                  · rw [if_neg hM]; exact ⟨hg, hx, hy⟩

end ScreenModel

theorem WF_step {m : ScreenModel} (h : m.WF) (e : Event) : (m.step e).WF := by
  cases e with
  | print c => exact ScreenModel.WF_print h c
  | execute b => exact ScreenModel.WF_execute h b
  | csi ps is2 ig a => exact ScreenModel.WF_csi_dispatch h ps is2 ig a
  | hook => exact h
  | put => exact h
  | unhook => exact h
  | osc => exact h
  | esc => exact h

theorem WF_feed {m : ScreenModel} (h : m.WF) (es : List Event) : (m.feed es).WF := by
  induction es generalizing m with
  | nil => exact h
  | cons e es ih => exact ih (WF_step h e)

theorem WF_applyOp {m : ScreenModel} (h : m.WF) (op : Op) : (m.applyOp op).WF := by
  cases op with
  | ev e => exact WF_step h e
  | clearOp => exact ScreenModel.WF_clear h
  | viewUp n => exact ⟨h.1, h.2.1, h.2.2⟩
  | viewDown n => exact ⟨h.1, h.2.1, h.2.2⟩
  | resetViewOp => exact ScreenModel.WF_reset_view h
  | fontOp => exact h

namespace ScreenModel

theorem printAdvance_viewport (m : ScreenModel) : (m.printAdvance).viewport_offset = 0 := by
  unfold printAdvance
  simp [apply_ite viewport_offset, scroll_up_viewport, reset_view_viewport]

theorem print_viewport (m : ScreenModel) (c : Char) : (m.print c).viewport_offset = 0 := by
  unfold print
  dsimp only
  split
  · exact printAdvance_viewport m
  · exact printAdvance_viewport m

theorem execute_viewport (m : ScreenModel) (b : Nat) :
    (m.execute b).viewport_offset = 0 := by
  unfold execute
  simp [apply_ite viewport_offset, scroll_up_viewport, reset_view_viewport]

theorem csi_viewport (m : ScreenModel) (ps is2 : List Nat) (ig : Bool) (a : Char) :
    (m.csi_dispatch ps is2 ig a).viewport_offset = m.viewport_offset := by
  unfold csi_dispatch
  simp [apply_ite viewport_offset, clear]

end ScreenModel

namespace ScreenModel

theorem execute_cr_eq (m : ScreenModel) :
    m.execute 13 = { m with viewport_offset := 0, full_repaint := m.full_repaint || m.viewport_offset != 0, cursor_x := 0 } := by
  unfold execute
  rw [reset_view_eq]
  dsimp only
  rw [if_neg (by omega : ¬ (13 : Nat) = 10), if_pos rfl]

theorem wrap_equiv_core {m : ScreenModel} (c : Char) (h : m.WF)
    (hx : m.cursor_x = m.cols) :
    m.print c = ((m.execute 13).execute 10).print c := by
  obtain ⟨hg, hxle, hy⟩ := h
  have hr : 1 ≤ m.rows := hg.1
  have hc : 1 ≤ m.cols := hg.2.1
  have hne : m.lines ≠ [] := by
    intro hL
    have hlen := hg.2.2.1
    rw [hL] at hlen
    simp at hlen
    omega
  have hyn : ¬ m.cursor_y ≥ m.rows := by omega
  have hxge : m.cursor_x ≥ m.cols := by omega
  have h0c : ¬ (0 : Nat) ≥ m.cols := by omega
  have hr2 : ¬ m.rows ≤ m.rows - 1 := by omega
  by_cases h2 : m.cursor_y + 1 ≥ m.rows
  · simp only [print, printAdvance, execute, reset_view_eq]
    simp [hyn, hxge, h0c, h2, hr2, scroll_up_eq, hne]
  · have h2n : ¬ m.cursor_y + 1 ≥ m.rows := h2
    simp only [print, printAdvance, execute, reset_view_eq]
    simp [hyn, hxge, h0c, h2n, hr2]

theorem printAdvance_cursor_x_lt {m : ScreenModel} (hc : 1 ≤ m.cols)
    (hy : m.cursor_y < m.rows) : (m.printAdvance).cursor_x < m.cols := by
  rw [printAdvance_eq_of_WF hy]
  by_cases hxc : m.cursor_x ≥ m.cols
  · rw [if_pos hxc]
    by_cases hyr : m.cursor_y + 1 ≥ m.rows
    · rw [if_pos hyr]
      dsimp only
      rw [scroll_up_cursor_x]
      dsimp only
      omega
    · rw [if_neg hyr]
      dsimp only
      omega
  · rw [if_neg hxc]
    dsimp only
    omega

theorem print_no_write_past_cols {m : ScreenModel} (c : Char)
    (hc : 1 ≤ m.cols) (hy : m.cursor_y < m.rows) (i j : Nat) (hj : m.cols ≤ j) :
    ((m.print c).lines.getD i default).chars.getD j ' ' =
    ((m.printAdvance).lines.getD i default).chars.getD j ' ' := by
  have hxlt : (m.printAdvance).cursor_x < m.cols := printAdvance_cursor_x_lt hc hy
  unfold print
  dsimp only
  split
  · dsimp only
    by_cases hi : (m.printAdvance).cursor_y = i
    · subst hi
      by_cases hlen2 : (m.printAdvance).cursor_y < (m.printAdvance).lines.length
      · have hxj : (m.printAdvance).cursor_x ≠ j := by omega
        simp [List.getD_eq_getElem?_getD, List.getElem?_set, hlen2, hxj]
      · have hnone : (m.printAdvance).lines[(m.printAdvance).cursor_y]? = none :=
          List.getElem?_eq_none (by omega)
        simp [List.getD_eq_getElem?_getD, List.getElem?_set, hlen2, hnone]
    · simp [List.getD_eq_getElem?_getD, List.getElem?_set, hi]
  · rfl

end ScreenModel

/-!
Renderer success lemmas.
-/

theorem paintCells_ok {o : DrawOracle} (hf : ∀ n, o.fillOk n = true)
    (cw : Nat) (cells : List (Nat × Char × Attrs)) (fc sc : Nat) :
    ∃ r, paintCells o cw cells fc sc = Except.ok r := by
  induction cells generalizing fc sc with
  | nil => exact ⟨(fc, sc), rfl⟩
  | cons cell rest ih =>
    obtain ⟨x, ch, attr⟩ := cell
    unfold paintCells
    dsimp only
    split
    · exact ⟨(fc, sc), rfl⟩
    · simp only [hf, Bool.not_true, Bool.false_eq_true, if_false]
      split
      · exact ih _ _
      · exact ih _ _

theorem paintRows_ok {o : DrawOracle} (hf : ∀ n, o.fillOk n = true)
    (cw ch2 : Nat) (ys : List Nat) (m : ScreenModel) (fc sc : Nat) :
    ∃ r, paintRows o cw ch2 ys m fc sc = Except.ok r := by
  induction ys generalizing m fc sc with
  | nil => exact ⟨(m, fc, sc), rfl⟩
  | cons y rest ih =>
    unfold paintRows
    dsimp only
    split
    · exact ih _ _ _
    · split
      · exact ⟨(m, fc, sc), rfl⟩
      · obtain ⟨⟨fc2, sc2⟩, hcells⟩ :=
          paintCells_ok hf cw (((m.resolveLine y).1.chars.zip (m.resolveLine y).1.attrs).enum) fc sc
        rw [hcells]
        exact ih _ _ _

/-!
Further helper lemmas for the claim theorems.
-/

/-- On the `some` side, `csi_dispatchP` agrees with `csi_dispatch`. -/
theorem csi_dispatchP_some {m m2 : ScreenModel} {ps is2 : List Nat} {ig : Bool} {a : Char}
    (h : m.csi_dispatchP ps is2 ig a = some m2) : m2 = m.csi_dispatch ps is2 ig a := by
  unfold ScreenModel.csi_dispatchP at h
  split at h
  · exact Option.noConfusion h
  · exact (Option.some.inj h).symm

/-- On the `some` side, `printP` agrees with `print`. -/
theorem printP_some {m m2 : ScreenModel} {c : Char}
    (h : m.printP c = some m2) : m2 = m.print c := by
  unfold ScreenModel.printP at h
  split at h
  · exact Option.noConfusion h
  · exact (Option.some.inj h).symm

/-- On the `some` side, `stepP` agrees with `step`. -/
theorem stepP_some {m m2 : ScreenModel} {e : Event}
    (h : m.stepP e = some m2) : m2 = m.step e := by
  cases e with
  | print c => exact printP_some h
  | csi ps is2 ig a => exact csi_dispatchP_some h
  | execute b => exact (Option.some.inj h).symm
  | hook => exact (Option.some.inj h).symm
  | put => exact (Option.some.inj h).symm
  | unhook => exact (Option.some.inj h).symm
  | osc => exact (Option.some.inj h).symm
  | esc => exact (Option.some.inj h).symm

/-- On the `some` side, `applyOpP` agrees with `applyOp`. -/
theorem applyOpP_some {m m2 : ScreenModel} {op : Op}
    (h : m.applyOpP op = some m2) : m2 = m.applyOp op := by
  cases op with
  | ev e => exact stepP_some h
  | clearOp => exact (Option.some.inj h).symm
  | viewUp n => exact (Option.some.inj h).symm
  | viewDown n => exact (Option.some.inj h).symm
  | resetViewOp => exact (Option.some.inj h).symm
  | fontOp => exact (Option.some.inj h).symm

/-- Any completed (non-panicking) `feed_bytes` call from a well-formed state
ends well-formed. -/
theorem WF_feedP {m : ScreenModel} (h : m.WF) {es : List Event} {m2 : ScreenModel}
    (hc : m.feedP es = some m2) : m2.WF := by
  induction es generalizing m with
  | nil =>
    unfold ScreenModel.feedP at hc
    exact (Option.some.inj hc) ▸ h
  | cons e rest ih =>
    unfold ScreenModel.feedP at hc
    cases hstep : m.stepP e with
    | none =>
      rw [hstep] at hc
      exact Option.noConfusion hc
    | some m1 =>
      rw [hstep] at hc
      have hwf1 : m1.WF := by
        rw [stepP_some hstep]
        exact WF_step h e
      exact ih hwf1 hc

theorem map_set_eq {α β} (f : α → β) (l : List α) (i : Nat) (v : α)
    (hv : ∀ h : i < l.length, f v = f l[i]) : (l.set i v).map f = l.map f := by
  apply List.ext_getElem?
  intro j
  rw [List.getElem?_map, List.getElem?_map, List.getElem?_set]
  by_cases hij : i = j
  · subst hij
    by_cases hlen : i < l.length
    · rw [if_pos rfl, if_pos hlen, List.getElem?_eq_getElem hlen]
      simp [hv hlen]
    · rw [if_pos rfl, if_neg hlen, List.getElem?_eq_none (by omega)]
  · rw [if_neg hij]

theorem csi_2J_eq_clear (m : ScreenModel) :
    m.csi_dispatch [2] [] false 'J' = m.clear := by rfl

theorem sgrApply_flag_negs {a : Attrs} {p : Nat} (hlo : 28 ≤ p) :
    ScreenModel.sgrApply a p =
      (if 30 ≤ p ∧ p ≤ 37 then { a with fg := Color.Indexed (p - 30) }
       else if p = 39 then { a with fg := Color.DefaultFg }
       else if 40 ≤ p ∧ p ≤ 47 then { a with bg := Color.Indexed (p - 40) }
       else if p = 49 then { a with bg := Color.DefaultBg }
       else if 90 ≤ p ∧ p ≤ 97 then { a with fg := Color.Indexed (p - 90 + 8) }
       else if 100 ≤ p ∧ p ≤ 107 then { a with bg := Color.Indexed (p - 100 + 8) }
       else a) := by
  unfold ScreenModel.sgrApply
  rw [if_neg (show ¬ p = 0 by omega), if_neg (show ¬ p = 1 by omega),
      if_neg (show ¬ p = 4 by omega), if_neg (show ¬ p = 7 by omega),
      if_neg (show ¬ p = 22 by omega), if_neg (show ¬ p = 24 by omega),
      if_neg (show ¬ p = 27 by omega)]

theorem sgrApply_fg_range {a : Attrs} {p : Nat} (h1 : 30 ≤ p) (h2 : p ≤ 37) :
    ScreenModel.sgrApply a p = { a with fg := Color.Indexed (p - 30) } := by
  rw [sgrApply_flag_negs (by omega), if_pos ⟨h1, h2⟩]

theorem sgrApply_bg_range {a : Attrs} {p : Nat} (h1 : 40 ≤ p) (h2 : p ≤ 47) :
    ScreenModel.sgrApply a p = { a with bg := Color.Indexed (p - 40) } := by
  rw [sgrApply_flag_negs (by omega), if_neg (show ¬ (30 ≤ p ∧ p ≤ 37) by omega),
      if_neg (show ¬ p = 39 by omega), if_pos ⟨h1, h2⟩]

theorem sgrApply_bright_fg_range {a : Attrs} {p : Nat} (h1 : 90 ≤ p) (h2 : p ≤ 97) :
    ScreenModel.sgrApply a p = { a with fg := Color.Indexed (p - 90 + 8) } := by
  rw [sgrApply_flag_negs (by omega), if_neg (show ¬ (30 ≤ p ∧ p ≤ 37) by omega),
      if_neg (show ¬ p = 39 by omega), if_neg (show ¬ (40 ≤ p ∧ p ≤ 47) by omega),
      if_neg (show ¬ p = 49 by omega), if_pos ⟨h1, h2⟩]

theorem sgrApply_bright_bg_range {a : Attrs} {p : Nat} (h1 : 100 ≤ p) (h2 : p ≤ 107) :
    ScreenModel.sgrApply a p = { a with bg := Color.Indexed (p - 100 + 8) } := by
  rw [sgrApply_flag_negs (by omega), if_neg (show ¬ (30 ≤ p ∧ p ≤ 37) by omega),
      if_neg (show ¬ p = 39 by omega), if_neg (show ¬ (40 ≤ p ∧ p ≤ 47) by omega),
      if_neg (show ¬ p = 49 by omega), if_neg (show ¬ (90 ≤ p ∧ p ≤ 97) by omega),
      if_pos ⟨h1, h2⟩]

theorem sgrApply_unrecognized {a : Attrs} {p : Nat}
    (h0 : p ≠ 0) (h1 : p ≠ 1) (h4 : p ≠ 4) (h7 : p ≠ 7) (h22 : p ≠ 22)
    (h24 : p ≠ 24) (h27 : p ≠ 27) (h39 : p ≠ 39) (h49 : p ≠ 49)
    (hr30 : ¬ (30 ≤ p ∧ p ≤ 37)) (hr40 : ¬ (40 ≤ p ∧ p ≤ 47))
    (hr90 : ¬ (90 ≤ p ∧ p ≤ 97)) (hr100 : ¬ (100 ≤ p ∧ p ≤ 107)) :
    ScreenModel.sgrApply a p = a := by
  unfold ScreenModel.sgrApply
  rw [if_neg h0, if_neg h1, if_neg h4, if_neg h7, if_neg h22, if_neg h24, if_neg h27,
      if_neg hr30, if_neg h39, if_neg hr40, if_neg h49, if_neg hr90, if_neg hr100]

/-!
Concrete models for closed-form runs.

The shipped model derives `rows` and `cols` from `FONTS[2]` (an
external-crate font); every theorem above is parametric in the metrics.  For
closed evaluations we use metrics giving a small 3×3 grid (320/100 = 3).
-/

/-- Font metrics producing a 3-column, 3-row grid on the 320×320 panel. -/
def testFont : FontMetrics :=
  { charWidth := 100, charHeight := 100, charSpacing := 0, baseline := 0 }

/-- The freshly-booted model for `testFont`. -/
def testModel : ScreenModel := mkScreenModel testFont

/-- A model in which the user is viewing scrollback: three line feeds push one
row into the scrollback, then the view scrolls up by one. -/
def viewedModel : ScreenModel :=
  (testModel.feed [Event.execute 10, Event.execute 10, Event.execute 10]).scroll_view_up 1

/-- A model whose cursor sits in the wrap-pending position `cursor_x = cols`
(three prints on the 3-column grid). -/
def wrapModel : ScreenModel :=
  testModel.feed [Event.print 'A', Event.print 'A', Event.print 'A']

/-!
Claim theorems.
-/

/-- C1 counterexample: on a fresh 3-column grid, feeding three printable
characters completes without panicking (`feedP` returns `some`) and leaves
`cursor_x = 3 = cols`: printing in the last column leaves `cursor_x` equal to
`cols`, so the claimed strict bound `cursor_x < cols` after `feed_bytes` is
false (the wrap is deferred to the next print). -/
theorem feed_cursor_x_can_equal_cols :
    testModel.feedP [Event.print 'A', Event.print 'A', Event.print 'A'] = some wrapModel ∧
    wrapModel.cursor_x = wrapModel.cols ∧ ¬ wrapModel.cursor_x < wrapModel.cols :=
  ⟨rfl, by decide⟩

/-- C1 (amended): for every parser-callback sequence whose `feed_bytes` call
COMPLETES from a well-formed state (`feedP` returns `some`; the CSI `1J`/`1K`
erase panic is reachable, so completion is a genuine hypothesis), the final
cursor satisfies `0 ≤ cursor_x ≤ cols` and `0 ≤ cursor_y < rows`;
`cursor_x = cols` is reachable (deferred wrap), so the bound on `cursor_x` is
inclusive. -/
theorem feed_cursor_bounds {m : ScreenModel} (h : m.WF) (es : List Event)
    {m2 : ScreenModel} (hc : m.feedP es = some m2) :
    m2.cursor_x ≤ m2.cols ∧ m2.cursor_y < m2.rows :=
  ⟨(WF_feedP h hc).2.1, (WF_feedP h hc).2.2⟩

theorem feed_cursor_bounds_witness :
    (testModel.feed [Event.print 'A']).cursor_x ≤ (testModel.feed [Event.print 'A']).cols ∧
    (testModel.feed [Event.print 'A']).cursor_y < (testModel.feed [Event.print 'A']).rows :=
  @feed_cursor_bounds testModel (by decide) [Event.print 'A']
    (testModel.feed [Event.print 'A']) (by rfl)

/-- C2 counterexample: in a state viewing scrollback (`viewport_offset = 1`),
a CSI cursor-up dispatch completes without panicking (`csi_dispatchP` returns
`some`) and moves the cursor (its effect is applied) yet leaves
`viewport_offset = 1`: `csi_dispatch` never calls `reset_view`. -/
theorem csi_dispatch_preserves_nonzero_viewport :
    viewedModel.viewport_offset = 1 ∧
    viewedModel.csi_dispatchP [1] [] false 'A' =
      some (viewedModel.csi_dispatch [1] [] false 'A') ∧
    (viewedModel.csi_dispatch [1] [] false 'A').viewport_offset = 1 ∧
    (viewedModel.csi_dispatch [1] [] false 'A').cursor_y = 1 :=
  ⟨by decide, rfl, by decide, by decide⟩

/-- C2 (amended): `print` and `execute` reset the viewport to the live view
before taking effect (their first action is `reset_view`), but any CSI
dispatch that completes (the faithful `csi_dispatchP` returns `some`; the
`1J`/`1K` erase panic is reachable) leaves `viewport_offset` exactly as it
was: only print/execute are viewport-resetting producer mutations. -/
theorem producer_viewport_semantics (m : ScreenModel) (c : Char) (b : Nat)
    (ps is2 : List Nat) (ig : Bool) (a : Char) :
    (∀ m2, m.printP c = some m2 → m2.viewport_offset = 0) ∧
    (m.execute b).viewport_offset = 0 ∧
    (∀ m2, m.csi_dispatchP ps is2 ig a = some m2 →
      m2.viewport_offset = m.viewport_offset) :=
  ⟨fun _ hm2 => by rw [printP_some hm2]; exact ScreenModel.print_viewport m c,
   ScreenModel.execute_viewport m b,
   fun _ hm2 => by rw [csi_dispatchP_some hm2]; exact ScreenModel.csi_viewport m ps is2 ig a⟩

theorem producer_viewport_semantics_witness :
    (testModel.print 'A').viewport_offset = 0 ∧
    (viewedModel.csi_dispatch [1] [] false 'A').viewport_offset =
      viewedModel.viewport_offset :=
  ⟨(producer_viewport_semantics testModel 'A' 0 [] [] false 'A').1
      (testModel.print 'A') (by rfl),
   (producer_viewport_semantics viewedModel 'A' 0 [1] [] false 'A').2.2
      (viewedModel.csi_dispatch [1] [] false 'A') (by rfl)⟩

/-- C3 counterexample: set bold via SGR 1, then CSI 2J: the erased cell style
is `Attrs.default`, not the bold `current_attrs` in force at erase time. -/
theorem csi_2J_ignores_current_style :
    ((testModel.csi_dispatch [1] [] false 'm').csi_dispatch [2] [] false 'J').current_attrs ≠
      ((((testModel.csi_dispatch [1] [] false 'm').csi_dispatch [2] [] false 'J').lines.getD
          0 default).attrs.getD 0 Attrs.default) := by
  decide

/-- C3 (amended): after CSI 2J every cell of the grid holds a space with the
DEFAULT style (`Attrs::default()`, not `current_attrs`: `clear` calls
`ScreenLine::clear`, which writes default attrs), every row is dirty, the
cursor is at (0,0) and `full_repaint` is set. -/
theorem csi_2J_resets_grid (m : ScreenModel) :
    ((m.csi_dispatch [2] [] false 'J').lines.all fun l =>
      l.chars.all (fun ch => ch == ' ') &&
      l.attrs.all (fun a2 => a2 == Attrs.default) && l.dirty) = true ∧
    (m.csi_dispatch [2] [] false 'J').cursor_x = 0 ∧
    (m.csi_dispatch [2] [] false 'J').cursor_y = 0 ∧
    (m.csi_dispatch [2] [] false 'J').full_repaint = true := by
  rw [csi_2J_eq_clear]
  refine ⟨?_, rfl, rfl, rfl⟩
  unfold ScreenModel.clear
  dsimp only
  rw [List.all_map, List.all_eq_true]
  intro l _
  simp [ScreenLine.clear, List.all_map, Function.comp, List.all_eq_true]

/-- C4 counterexample: with every `fill_solid` failing, the very first cell
background fill hits `.unwrap()` and the paint cycle aborts (a panic in the
source), instead of the failure being swallowed and the painter continuing. -/
theorem fill_solid_failure_panics :
    testModel.update_display { clearOk := true, fillOk := fun _ => false } =
      Except.error () := by
  rfl

/-- C4 (amended): `display.clear` and the two `fill_solid` draw sites are
unwrapped — their failure aborts the paint cycle (panic) — while glyph text
draws, box-drawing primitives and the cursor fill are `.ok()`-swallowed and
consume no fallible input at all, so when the clear and every fill succeed
the paint cycle completes.  `feed_bytes`/`print` return no error value to
producers, but they are NOT never-fatal: the CSI `1J`/`1K` erase loops
reachably panic at the wrap-pending state `cursor_x = cols` — fill a
3-column row with three prints, then feed CSI `1K`, and `feedP` aborts
(`none`), the Rust `chars[cols]` index being out of bounds. -/
theorem update_display_best_effort (m : ScreenModel) (o : DrawOracle)
    (hclear : o.clearOk = true) (hf : ∀ n, o.fillOk n = true) :
    (∃ r, m.update_display o = Except.ok r) ∧
    testModel.feedP [Event.print 'A', Event.print 'A', Event.print 'A',
      Event.csi [1] [] false 'K'] = none := by
  refine ⟨?_, rfl⟩
  unfold ScreenModel.update_display
  dsimp only
  rw [hclear]
  simp only [Bool.not_true, Bool.and_false, Bool.false_eq_true, if_false]
  obtain ⟨⟨m2, fc2, sc2⟩, hrows⟩ := paintRows_ok hf (m.font.charWidth + m.font.charSpacing)
    m.font.charHeight (List.range m.rows) m 0 0
  rw [hrows]
  exact ⟨_, rfl⟩

theorem update_display_best_effort_witness :
    (∃ r, testModel.update_display { clearOk := true, fillOk := fun _ => true } =
      Except.ok r) ∧
    testModel.feedP [Event.print 'A', Event.print 'A', Event.print 'A',
      Event.csi [1] [] false 'K'] = none :=
  update_display_best_effort testModel { clearOk := true, fillOk := fun _ => true }
    rfl (fun _ => rfl)

/-- C5 counterexample: the wrap-pending state `wrapModel` (three prints on a
3-column grid, `cursor_x = 3 = cols`) is well-formed, yet the public
operation CSI `1K` PANICS from it (`applyOpP` returns `none`: the erase loop
indexes `chars[3]` on a 3-long row), so "preserved by every operation" fails
— the operation does not complete at all. -/
theorem erase_at_wrap_pending_panics :
    wrapModel.WF ∧ wrapModel.applyOpP (Op.ev (Event.csi [1] [] false 'K')) = none :=
  ⟨by decide, rfl⟩

/-- C5 (amended): every public operation THAT COMPLETES (each parser
callback that does not hit the reachable CSI `1J`/`1K` erase panic, `clear`,
view scrolling, `reset_view`, the font stubs) preserves the structural
invariants: the grid keeps exactly `rows` rows of exactly `cols` cells, and
the scrollback never exceeds `max_scrollback` (200); and `scroll_up` pops the
first grid row onto the scrollback tail — evicting the oldest scrollback row
when at capacity — appends a fresh cleared row at the grid tail and sets
`full_repaint`. -/
theorem structural_invariants_and_scroll_up (op : Op) {m : ScreenModel} (h : m.WF) :
    (∀ m2, m.applyOpP op = some m2 → m2.WF) ∧
    m.scroll_up = { m with
      lines := m.lines.drop 1 ++ [ScreenLine.new m.cols],
      scrollback := (if m.scrollback.length = m.max_scrollback
                     then m.scrollback.drop 1 else m.scrollback) ++ [m.lines.headD default],
      full_repaint := true } := by
  refine ⟨fun _ hm2 => by rw [applyOpP_some hm2]; exact WF_applyOp h op, ?_⟩
  obtain ⟨⟨hr, hc, hlen, _, _, hsblen, hmax⟩, _, _⟩ := h
  have hne : m.lines ≠ [] := by
    intro hL; rw [hL] at hlen; simp at hlen; omega
  rw [ScreenModel.scroll_up_eq hne]
  have hsb : (if (m.scrollback ++ [m.lines.headD default]).length > m.max_scrollback
      then (m.scrollback ++ [m.lines.headD default]).drop 1
      else m.scrollback ++ [m.lines.headD default]) =
      (if m.scrollback.length = m.max_scrollback
       then m.scrollback.drop 1 else m.scrollback) ++ [m.lines.headD default] := by
    by_cases hcap : m.scrollback.length = m.max_scrollback
    · rw [if_pos (by simp only [List.length_append, List.length_singleton]; omega),
          if_pos hcap, List.drop_append_of_le_length (by omega)]
    · rw [if_neg (by simp only [List.length_append, List.length_singleton]; omega),
          if_neg hcap]
  rw [hsb]

theorem structural_invariants_and_scroll_up_witness :
    (testModel.applyOp Op.clearOp).WF :=
  (@structural_invariants_and_scroll_up Op.clearOp testModel (by decide)).1
    (testModel.applyOp Op.clearOp) (by rfl)

/-- C6: wrap equivalence and never-write-past-cols.  (1) From any well-formed
state with `cursor_x = cols`, printing a character yields exactly the same
model state as feeding CR then LF then the character — including when the
cursor is on the bottom row, where both paths scroll exactly once, so
equivalence holds even without quotienting by scroll side effects.  (2) After
the wrap/scroll advance phase the write column is < cols, and (3) `print`
leaves every cell at a column index ≥ cols (cells that exist only in a
malformed over-wide row) untouched: the cell at column `cols` is never
written. -/
theorem wrap_equivalence (m : ScreenModel) (c : Char) :
    (m.WF → m.cursor_x = m.cols →
      m.print c = ((m.execute 13).execute 10).print c) ∧
    (1 ≤ m.cols → m.cursor_y < m.rows → (m.printAdvance).cursor_x < m.cols) ∧
    (1 ≤ m.cols → m.cursor_y < m.rows → ∀ i j, m.cols ≤ j →
      ((m.print c).lines.getD i default).chars.getD j ' ' =
      ((m.printAdvance).lines.getD i default).chars.getD j ' ') :=
  ⟨fun h hx => ScreenModel.wrap_equiv_core c h hx,
   fun hc hy => ScreenModel.printAdvance_cursor_x_lt hc hy,
   fun hc hy i j hj => ScreenModel.print_no_write_past_cols c hc hy i j hj⟩

theorem wrap_equivalence_witness :
    (wrapModel.print 'B' = ((wrapModel.execute 13).execute 10).print 'B') ∧
    (wrapModel.printAdvance).cursor_x < wrapModel.cols ∧
    ((wrapModel.print 'B').lines.getD 0 default).chars.getD 3 ' ' =
      ((wrapModel.printAdvance).lines.getD 0 default).chars.getD 3 ' ' := by
  obtain ⟨h1, h2, h3⟩ := wrap_equivalence wrapModel 'B'
  exact ⟨h1 (by decide) (by decide), h2 (by decide) (by decide),
         h3 (by decide) (by decide) 0 3 (by decide)⟩

/-- C7: SGR semantics.  A CSI `m` dispatch folds the parameter list over the
current style in order (conjuncts 2 and 3), and each parameter acts
independently exactly as the table says: 0 resets to the default style (so
after `ESC[0m` the current style equals the default, conjunct 1), 1/22 set
and clear bold, 4/24 underline, 7/27 reverse, 30–37 / 90–97 set the
foreground to `Indexed(p−30)` / `Indexed(p−90+8)`, 40–47 / 100–107 likewise
for the background, 39/49 restore the default foreground/background, and
every other value changes nothing. -/
theorem sgr_semantics (m : ScreenModel) :
    ((m.csi_dispatch [0] [] false 'm').current_attrs = Attrs.default) ∧
    (∀ ps, m.csi_dispatch ps [] false 'm' =
      { m with current_attrs := ps.foldl ScreenModel.sgrApply m.current_attrs }) ∧
    (∀ a p ps2, (p :: ps2).foldl ScreenModel.sgrApply a =
      ps2.foldl ScreenModel.sgrApply (ScreenModel.sgrApply a p)) ∧
    (∀ a, ScreenModel.sgrApply a 0 = Attrs.default) ∧
    (∀ a, ScreenModel.sgrApply a 1 = { a with bold := true }) ∧
    (∀ a, ScreenModel.sgrApply a 22 = { a with bold := false }) ∧
    (∀ a, ScreenModel.sgrApply a 4 = { a with underline := true }) ∧
    (∀ a, ScreenModel.sgrApply a 24 = { a with underline := false }) ∧
    (∀ a, ScreenModel.sgrApply a 7 = { a with reverse := true }) ∧
    (∀ a, ScreenModel.sgrApply a 27 = { a with reverse := false }) ∧
    (∀ a p, 30 ≤ p → p ≤ 37 →
      ScreenModel.sgrApply a p = { a with fg := Color.Indexed (p - 30) }) ∧
    (∀ a, ScreenModel.sgrApply a 39 = { a with fg := Color.DefaultFg }) ∧
    (∀ a p, 40 ≤ p → p ≤ 47 →
      ScreenModel.sgrApply a p = { a with bg := Color.Indexed (p - 40) }) ∧
    (∀ a, ScreenModel.sgrApply a 49 = { a with bg := Color.DefaultBg }) ∧
    (∀ a p, 90 ≤ p → p ≤ 97 →
      ScreenModel.sgrApply a p = { a with fg := Color.Indexed (p - 90 + 8) }) ∧
    (∀ a p, 100 ≤ p → p ≤ 107 →
      ScreenModel.sgrApply a p = { a with bg := Color.Indexed (p - 100 + 8) }) ∧
    (∀ a p, p ≠ 0 → p ≠ 1 → p ≠ 4 → p ≠ 7 → p ≠ 22 → p ≠ 24 → p ≠ 27 →
      p ≠ 39 → p ≠ 49 → ¬ (30 ≤ p ∧ p ≤ 37) → ¬ (40 ≤ p ∧ p ≤ 47) →
      ¬ (90 ≤ p ∧ p ≤ 97) → ¬ (100 ≤ p ∧ p ≤ 107) →
      ScreenModel.sgrApply a p = a) :=
  ⟨rfl, fun _ => rfl, fun _ _ _ => rfl, fun _ => rfl, fun _ => rfl, fun _ => rfl,
   fun _ => rfl, fun _ => rfl, fun _ => rfl, fun _ => rfl,
   fun _ _ h1 h2 => sgrApply_fg_range h1 h2, fun _ => rfl,
   fun _ _ h1 h2 => sgrApply_bg_range h1 h2, fun _ => rfl,
   fun _ _ h1 h2 => sgrApply_bright_fg_range h1 h2,
   fun _ _ h1 h2 => sgrApply_bright_bg_range h1 h2,
   fun _ _ h0 h1 h4 h7 h22 h24 h27 h39 h49 hr30 hr40 hr90 hr100 =>
     sgrApply_unrecognized h0 h1 h4 h7 h22 h24 h27 h39 h49 hr30 hr40 hr90 hr100⟩

theorem sgr_semantics_witness :
    ScreenModel.sgrApply Attrs.default 31 = { Attrs.default with fg := Color.Indexed 1 } ∧
    ScreenModel.sgrApply Attrs.default 45 = { Attrs.default with bg := Color.Indexed 5 } ∧
    ScreenModel.sgrApply Attrs.default 92 = { Attrs.default with fg := Color.Indexed 10 } ∧
    ScreenModel.sgrApply Attrs.default 103 = { Attrs.default with bg := Color.Indexed 11 } ∧
    ScreenModel.sgrApply Attrs.default 55 = Attrs.default := by
  obtain ⟨-, -, -, -, -, -, -, -, -, -, h11, -, h13, -, h15, h16, h17⟩ :=
    sgr_semantics testModel
  exact ⟨h11 Attrs.default 31 (by decide) (by decide),
         h13 Attrs.default 45 (by decide) (by decide),
         h15 Attrs.default 92 (by decide) (by decide),
         h16 Attrs.default 103 (by decide) (by decide),
         h17 Attrs.default 55 (by decide) (by decide) (by decide) (by decide) (by decide)
           (by decide) (by decide) (by decide) (by decide) (by decide) (by decide)
           (by decide) (by decide)⟩

/-- C8: cursor-movement CSI sequences clamp rather than wrap, and modify no
cell (each equation is a record update touching only the cursor): A subtracts
n from `cursor_y` saturating at 0 (`Nat` subtraction), B adds n clamping to
`rows−1`, C adds n to `cursor_x` clamping to `cols−1`, D subtracts n
saturating at 0, each defaulting to n = 1 when no parameter is given; H and f
move the cursor to (row−1, col−1) clamped to the grid, defaulting to (1,1),
i.e. home. -/
theorem cursor_motion_clamps (m : ScreenModel) (n r2 c2 : Nat) :
    (m.csi_dispatch [n] [] false 'A' = { m with cursor_y := m.cursor_y - n }) ∧
    (m.csi_dispatch [] [] false 'A' = { m with cursor_y := m.cursor_y - 1 }) ∧
    (m.csi_dispatch [n] [] false 'B' =
      { m with cursor_y := min (m.cursor_y + n) (m.rows - 1) }) ∧
    (m.csi_dispatch [] [] false 'B' =
      { m with cursor_y := min (m.cursor_y + 1) (m.rows - 1) }) ∧
    (m.csi_dispatch [n] [] false 'C' =
      { m with cursor_x := min (m.cursor_x + n) (m.cols - 1) }) ∧
    (m.csi_dispatch [] [] false 'C' =
      { m with cursor_x := min (m.cursor_x + 1) (m.cols - 1) }) ∧
    (m.csi_dispatch [n] [] false 'D' = { m with cursor_x := m.cursor_x - n }) ∧
    (m.csi_dispatch [] [] false 'D' = { m with cursor_x := m.cursor_x - 1 }) ∧
    (1 ≤ r2 → 1 ≤ c2 → m.csi_dispatch [r2, c2] [] false 'H' =
      { m with cursor_y := min (r2 - 1) (m.rows - 1),
               cursor_x := min (c2 - 1) (m.cols - 1) }) ∧
    (1 ≤ r2 → 1 ≤ c2 → m.csi_dispatch [r2, c2] [] false 'f' =
      { m with cursor_y := min (r2 - 1) (m.rows - 1),
               cursor_x := min (c2 - 1) (m.cols - 1) }) ∧
    (m.csi_dispatch [] [] false 'H' = { m with cursor_y := 0, cursor_x := 0 }) := by
  refine ⟨rfl, rfl, rfl, rfl, rfl, rfl, rfl, rfl, ?_, ?_, ?_⟩
  · intro hr2 hc2
    simp [ScreenModel.csi_dispatch, Nat.max_eq_left hr2, Nat.max_eq_left hc2]
  · intro hr2 hc2
    simp [ScreenModel.csi_dispatch, Nat.max_eq_left hr2, Nat.max_eq_left hc2]
  · simp [ScreenModel.csi_dispatch]

theorem cursor_motion_clamps_witness :
    testModel.csi_dispatch [2, 3] [] false 'H' =
      { testModel with cursor_y := min 1 (testModel.rows - 1),
                       cursor_x := min 2 (testModel.cols - 1) } := by
  obtain ⟨-, -, -, -, -, -, -, -, hH, -, -⟩ := cursor_motion_clamps testModel 1 2 3
  exact hH (by decide) (by decide)

/-- C9: `clear()` — the body of CSI 2J and of the `cls` command — touches only
the grid cells, the cursor, the per-row dirty flags and `full_repaint`: the
scrollback, the viewport offset, the current style, the dimensions and the
font are all left unchanged; in particular a user viewing scrollback
(`viewport_offset > 0`) is not returned to the live view by `clear()`. -/
theorem clear_frame_semantics (m : ScreenModel) :
    (m.clear).scrollback = m.scrollback ∧
    (m.clear).viewport_offset = m.viewport_offset ∧
    (m.clear).current_attrs = m.current_attrs ∧
    (m.clear).max_scrollback = m.max_scrollback ∧
    (m.clear).rows = m.rows ∧
    (m.clear).cols = m.cols ∧
    (m.clear).font = m.font ∧
    (m.clear).lines.length = m.lines.length ∧
    (m.clear).cursor_x = 0 ∧
    (m.clear).cursor_y = 0 ∧
    (m.clear).full_repaint = true ∧
    m.csi_dispatch [2] [] false 'J' = m.clear ∧
    (0 < m.viewport_offset → 0 < (m.clear).viewport_offset) :=
  ⟨rfl, rfl, rfl, rfl, rfl, rfl, rfl, by simp [ScreenModel.clear], rfl, rfl, rfl,
   csi_2J_eq_clear m, fun h => h⟩

theorem clear_frame_semantics_witness :
    0 < viewedModel.viewport_offset ∧ 0 < (viewedModel.clear).viewport_offset := by
  obtain ⟨-, -, -, -, -, -, -, -, -, -, -, -, hview⟩ := clear_frame_semantics viewedModel
  exact ⟨by decide, hview (by decide)⟩

/-- C10: a CSI K dispatch with an unrecognized mode (n ≥ 3) erases nothing —
every cell's codepoint and style across the whole grid is unchanged — yet
still marks the cursor's row dirty, because `line.dirty = true` runs after
the mode match falls through. -/
theorem csi_K_unknown_mode_marks_dirty (m : ScreenModel) (n : Nat) (h3 : 3 ≤ n) :
    ((m.csi_dispatch [n] [] false 'K').lines.map ScreenLine.chars =
      m.lines.map ScreenLine.chars) ∧
    ((m.csi_dispatch [n] [] false 'K').lines.map ScreenLine.attrs =
      m.lines.map ScreenLine.attrs) ∧
    ((m.csi_dispatch [n] [] false 'K').lines.length = m.lines.length) ∧
    (m.cursor_y < m.lines.length →
      ((m.csi_dispatch [n] [] false 'K').lines.getD m.cursor_y default).dirty = true) := by
  have hK : m.csi_dispatch [n] [] false 'K' =
      { m with lines := m.lines.set m.cursor_y { m.lines.getD m.cursor_y default with dirty := true } } := by
    unfold ScreenModel.csi_dispatch
    rw [if_neg (by decide), if_neg (by decide), if_neg (by decide), if_neg (by decide),
        if_neg (by decide), if_neg (by decide), if_neg (by decide), if_pos rfl]
    dsimp only [List.headD]
    rw [if_neg (by omega : ¬ n = 0), if_neg (by omega : ¬ n = 1),
        if_neg (by omega : ¬ n = 2)]
  rw [hK]
  refine ⟨?_, ?_, ?_, ?_⟩
  · exact map_set_eq _ _ _ _ (fun h => by rw [List.getD_eq_getElem _ _ h])
  · exact map_set_eq _ _ _ _ (fun h => by rw [List.getD_eq_getElem _ _ h])
  · exact List.length_set m.lines _ _
  · intro h
    simp [List.getD_eq_getElem?_getD, List.getElem?_set, h]

theorem csi_K_unknown_mode_marks_dirty_witness :
    ((testModel.csi_dispatch [5] [] false 'K').lines.map ScreenLine.chars =
      testModel.lines.map ScreenLine.chars) ∧
    ((testModel.csi_dispatch [5] [] false 'K').lines.getD testModel.cursor_y
      default).dirty = true := by
  obtain ⟨hchars, -, -, hdirty⟩ := csi_K_unknown_mode_marks_dirty testModel 5 (by decide)
  exact ⟨hchars, hdirty (by decide)⟩
